import Mathlib

/-!
# Verification of the commitpad local-first sync engine

This file gives a shallow embedding of the note-synchronisation code of the
commitpad repository (`src/context/NoteContext.tsx`, called `NoteCtx` below,
and its near-duplicate variant `part_008`, called `P8` below) and proves or
refutes the specification claims about it.

Modelling conventions:
* JS strings are Lean `String`; the character-level operations the source
  uses (`split`, `replace`, `startsWith`, `endsWith`, `toLowerCase`) are
  re-implemented below on `String.data` so they can be reasoned about.
* The remote GitHub repository is modelled as a fixed snapshot tree of
  files and directories (`Entry`).  Listing a directory returns its
  children; reading a file returns the snapshot content.  The base64
  transport (`btoa`/`atob`) is a bijection on the transported text and is
  elided.
* Remote mutations (`createOrUpdateFileContents`, `deleteFile`, and the
  sha-refetching `getContent` calls that precede them) can fail; their
  outcomes are supplied by an `Oracle` of `Except`-valued functions.
* An async public operation is a function returning
  `Except String (AppState × α)`: `.ok` is the promise resolving, `.error`
  the promise rejecting.  A JS `try`/`catch` whose body mutates state
  before throwing is modelled by an inner computation of type
  `Except AppState (AppState × α)` whose error payload is the state at the
  moment of the throw; `jsCatch` then applies the catch-block.
-/

/-- JS `\s` for the characters that can occur in our strings
(space, tab, CR, LF, FF, VT). -/
def isJsWs (c : Char) : Bool :=
  c = ' ' || c = '\t' || c = '\r' || c = '\n' || c = '\x0b' || c = '\x0c'

/-- JS `String.prototype.split` with a one-character separator, on char
lists: `"a/b" ↦ ["a","b"]`, `"" ↦ [""]`. -/
def splitOnChar (sep : Char) : List Char → List (List Char)
  | [] => [[]]
  | c :: rest =>
    match splitOnChar sep rest with
    | [] => [[]]
    | h :: t => if c = sep then [] :: h :: t else (c :: h) :: t

/-- JS `s.split(sep)` producing strings. -/
def jsSplit (s : String) (sep : Char) : List String :=
  (splitOnChar sep s.data).map String.mk

/-- JS `s.startsWith(pre)`. -/
def jsStartsWith (s pre : String) : Bool :=
  pre.data.isPrefixOf s.data

/-- JS `s.endsWith(suf)`. -/
def jsEndsWith (s suf : String) : Bool :=
  suf.data.isSuffixOf s.data

/-- JS `s.toLowerCase()` (ASCII case folding suffices for the names used). -/
def jsToLower (s : String) : String :=
  String.mk (s.data.map Char.toLower)

/-- Remove the first occurrence of `pat` from a char list (JS
`s.replace(pat, '')` with a string pattern replaces the first match). -/
def removeFirst (pat : List Char) : List Char → List Char
  | [] => []
  | c :: rest =>
    if pat.isPrefixOf (c :: rest) then (c :: rest).drop pat.length
    else c :: removeFirst pat rest

/-- JS `s.replace('note_', '')`. -/
def jsRemoveNotePrefix (s : String) : String :=
  String.mk (removeFirst "note_".data s.data)

/-- JS `s.replace(/\.md$/, '')`. -/
def jsStripMdSuffix (s : String) : String :=
  if ".md".data.isSuffixOf s.data then String.mk (s.data.take (s.data.length - 3)) else s

/-- JS `content.split('\n')[0]`: the first line. -/
def jsFirstLine (s : String) : String :=
  String.mk (s.data.takeWhile (fun c => c ≠ '\n'))

/-- JS `line.replace(/^#\s+/, '')`: if the line starts with `#` followed by
at least one whitespace character, drop the `#` and that whitespace run;
otherwise the line is unchanged. -/
def jsStripHeading (s : String) : String :=
  match s.data with
  | '#' :: c :: rest =>
    if isJsWs c then String.mk ((c :: rest).dropWhile isJsWs) else s
  | _ => s

/-! ## The remote repository snapshot

`getContent` on a directory path returns the directory listing, on a file
path the file's content and sha.  The snapshot tree models one consistent
remote state; each `Entry` carries its full slash-separated path, as the
GitHub contents API reports it.  -/

mutual
/-- One entry of the remote repository tree (`type: 'file' | 'dir'` of the
contents API), carrying its full slash-separated path. -/
inductive Entry where
  | file (name path sha content : String)
  | dir (name path sha : String) (children : EntryList)
/-- A directory listing (the mutual companion of `Entry`, kept as its own
inductive so that recursion over the tree is structural). -/
inductive EntryList where
  | nil
  | cons (e : Entry) (rest : EntryList)
end

/-- Build a listing from a plain list of entries. -/
def entryList : List Entry → EntryList
  | [] => .nil
  | e :: r => .cons e (entryList r)

/-- A listed remote file: `{name, path, sha}` plus the content the snapshot
would return for a follow-up `getContent` on `path`. -/
structure RFile where
  name : String
  path : String
  sha : String
  content : String
deriving DecidableEq, Repr

/-- The file entries of a listing (GitHub contents-API rows with
`type === 'file'`), in listing order, with their snapshot contents. -/
def topFiles : EntryList → List RFile
  | .nil => []
  | .cons (.file n p s c) rest => ⟨n, p, s, c⟩ :: topFiles rest
  | .cons (.dir _ _ _ _) rest => topFiles rest

/-- The directory entries of a listing (`type === 'dir'`). -/
def topDirs : EntryList → List (String × String × String)
  | .nil => []
  | .cons (.file _ _ _ _) rest => topDirs rest
  | .cons (.dir n p s _) rest => (n, p, s) :: topDirs rest

mutual
/-- All files below one entry, in depth-first listing order. -/
def allFilesE : Entry → List RFile
  | .file n p s c => [⟨n, p, s, c⟩]
  | .dir _ _ _ ch => allFiles ch
/-- All files of the tree, in the order a depth-first listing visits them
(a directory's files appear at the directory's position). -/
def allFiles : EntryList → List RFile
  | .nil => []
  | .cons e rest => allFilesE e ++ allFiles rest
end

mutual
/-- `findDir` on one entry: the children of the directory with the given
path, if it lies at or below this entry. -/
def findDirE : Entry → String → Option EntryList
  | .file _ _ _ _, _ => none
  | .dir _ dp _ ch, p => if dp = p then some ch else findDir ch p
/-- `getContent` on a directory path: the children of the first directory
entry with that path. -/
def findDir : EntryList → String → Option EntryList
  | .nil, _ => none
  | .cons e rest, p =>
    match findDirE e p with
    | some r => some r
    | none => findDir rest p
end

/-- Equality of `Except` results is decidable; used to evaluate the
operations on concrete inputs. -/
instance {ε α : Type} [DecidableEq ε] [DecidableEq α] : DecidableEq (Except ε α) :=
  fun x y =>
    match x, y with
    | .ok a, .ok b =>
      match decEq a b with
      | isTrue h => isTrue (by rw [h])
      | isFalse h => isFalse (fun hh => h (by cases hh; rfl))
    | .error a, .error b =>
      match decEq a b with
      | isTrue h => isTrue (by rw [h])
      | isFalse h => isFalse (fun hh => h (by cases hh; rfl))
    | .ok _, .error _ => isFalse (fun hh => by cases hh)
    | .error _, .ok _ => isFalse (fun hh => by cases hh)

/-- The `SyncStatus` union (`'synced' | 'pending' | 'conflicted' |
'offline'`) together with the `'syncing'` literal the canonical context
also assigns. -/
inductive SyncStatus where
  | synced | syncing | pending | conflicted | offline
deriving DecidableEq, Repr

/-- Ambient session facts each operation consults:
`authState.isAuthenticated`, `selectedRepository` being set,
`getOctokit()` returning a client, and `navigator.onLine`. -/
structure Env where
  auth : Bool
  repo : Bool
  octokit : Bool
  online : Bool
deriving DecidableEq, Repr

/-- Outcomes of the remote mutation calls and of the sha-refetching
`getContent` calls that precede them, keyed by path.  `.error` models the
request rejecting (network failure, 404, 409, 401 …). -/
structure Oracle where
  /-- `getContent` on a file path, projecting `data.sha`. -/
  getSha : String → Except Unit String
  /-- `createOrUpdateFileContents`, projecting `response.data.content?.sha`. -/
  putFile : String → Except Unit (Option String)
  /-- `deleteFile`. -/
  delFile : String → Except Unit Unit
deriving Inhabited

namespace NoteCtx

/-! ## Canonical context (`src/src/context/NoteContext.tsx`) -/

/-- The `Note` objects the canonical context builds (the declared interface
plus the `folder` property it attaches; `lastModified` timestamps are
abstracted to the `Nat` tick at which they were written). -/
structure Note where
  id : String
  title : String
  content : String
  path : String
  folder : Option String
  lastModified : Nat
  synced : Bool
deriving DecidableEq, Repr

/-- A `Folder` object as built by `fetchFolders`
(`{id: dir.sha, name, path, lastModified: dir.sha, notes: []}`). -/
structure Folder where
  id : String
  name : String
  path : String
  lastModified : String
  notes : List Note
deriving DecidableEq, Repr

/-- The React state of the provider. -/
structure AppState where
  notes : List Note
  folders : List Folder
  currentNote : Option Note
  syncStatus : SyncStatus
  loading : Bool
  error : Option String
deriving DecidableEq, Repr

/-- The body of a JS `try` block: the error payload is the state already
mutated at the moment of the throw. -/
abbrev Body (α : Type) := Except AppState (AppState × α)

/-- `try { body } catch { handler }` for an async function that resolves on
both paths; the result is `.ok` whenever the handler is reached. -/
def jsCatch (body : Body α) (handler : AppState → AppState × α) :
    Except String (AppState × α) :=
  match body with
  | .ok r => .ok r
  | .error s => .ok (handler s)

mutual
/-- The contribution of one listed entry to `getAllFiles`: directories are
expanded recursively, and a file is kept exactly when
`item.name.startsWith('note_') || item.name.endsWith('.md')`. -/
def getAllFilesE : Entry → List RFile
  | .file n p s c =>
    if jsStartsWith n "note_" || jsEndsWith n ".md" then [⟨n, p, s, c⟩] else []
  | .dir _ _ _ ch => getAllFiles ch
/-- The recursive listing of `fetchNotes` (`getAllFiles`), with each
directory's files flattened in at the directory's position. -/
def getAllFiles : EntryList → List RFile
  | .nil => []
  | .cons e rest => getAllFilesE e ++ getAllFiles rest
end

/-- Title extraction shared by `fetchNotes` and `syncNotes`:
`content.split('\n')[0].replace(/^#\s+/, '') || fallback`. -/
def deriveTitle (content fallback : String) : String :=
  let t := jsStripHeading (jsFirstLine content)
  if t = "" then fallback else t

/-- The fallback title `file.name.replace(/\.md$/, '').replace('note_', '')`. -/
def fallbackTitle (name : String) : String :=
  jsRemoveNotePrefix (jsStripMdSuffix name)

/-- The note `fetchNotes` builds from a fetched file: sha as id, derived
title, the full decoded content, and the folder taken from the path's first
segment when the path has more than one segment. -/
def noteOfFile (now : Nat) (f : RFile) : Note :=
  { id := f.sha
    title := deriveTitle f.content (fallbackTitle f.name)
    content := f.content
    path := f.path
    folder :=
      match jsSplit f.path '/' with
      | p0 :: _ :: _ => some p0
      | _ => none
    lastModified := now
    synced := true }

/-- `fetchNotes`: with no authenticated session or no repository it clears
`notes` and `currentNote` and returns; otherwise it lists all note files,
reads each one, and replaces the whole `notes` state with the fetched
set. -/
def fetchNotes (env : Env) (tree : EntryList) (now : Nat) (st : AppState) :
    Except String (AppState × Unit) :=
  if !(env.auth && env.repo) then
    .ok ({ st with notes := [], currentNote := none }, ())
  else
    let st1 := { st with loading := true, error := none }
    jsCatch
      (if !env.octokit then .error st1
       else
        let ns := (getAllFiles tree).map (noteOfFile now)
        .ok ({ st1 with
                notes := ns
                syncStatus := if env.online then .synced else .offline
                loading := false }, ()))
      (fun s =>
        ({ s with error := some "Failed to fetch notes from GitHub", notes := []
                  loading := false }, ()))

/-- The file content `createNote` serialises: `# ${title}\n${content}`. -/
def serializeNote (title content : String) : String :=
  "# " ++ title ++ "\n" ++ content

/-- The path `createNote` assigns:
`folderName ? folder/note_<ts>.md : note_<ts>.md`. -/
def notePath (folderName : Option String) (ts : Nat) : String :=
  match folderName with
  | some f => f ++ "/note_" ++ toString ts ++ ".md"
  | none => "note_" ++ toString ts ++ ".md"

/-- `createNote`: optimistic local insert of a temporary note, early return
while offline, then a remote create whose success replaces the temporary
note by the final one.  `now` is the tick of the first `Date.now()` call
(the temporary path), `now2` of the second (the created file's path). -/
def createNote (env : Env) (orc : Oracle) (now now2 : Nat) (st : AppState)
    (title content : String) (folderName : Option String) :
    Except String (AppState × Option Note) :=
  if !(env.auth && env.repo) then .ok (st, none)
  else
    let tempId := "temp-" ++ toString now
    let tempNote : Note :=
      { id := tempId, title, content, path := notePath folderName now
        folder := folderName, lastModified := now, synced := false }
    let st1 := { st with loading := true, error := none, syncStatus := .syncing
                         notes := st.notes ++ [tempNote]
                         currentNote := some tempNote }
    if !env.online then
      -- the offline return precedes the try/finally: loading stays true
      .ok ({ st1 with
              error := some "Cannot sync note while offline. Your note will be synced when you are back online."
              syncStatus := .offline }, some tempNote)
    else
      jsCatch
        (if !env.octokit then .error st1
         else
          let filename := notePath folderName now2
          match orc.putFile filename with
          | .error _ => .error st1
          | .ok shaOpt =>
            match shaOpt with
            | none => .error st1
            | some sha =>
              let finalNote : Note :=
                { id := sha, title, content, path := filename
                  folder := folderName, lastModified := now2, synced := true }
              .ok ({ st1 with
                      notes := st1.notes.map
                        (fun n => if n.id == tempId then finalNote else n)
                      currentNote := some finalNote
                      syncStatus := .synced
                      loading := false }, some finalNote))
        (fun s =>
          ({ s with error := some "Failed to create note", syncStatus := .offline
                    loading := false }, none))

/-- `updateNote`: mutates the found note in place (content, timestamp,
and — when given — the folder field) before any connectivity or remote
check; the remote write then happens at the note's existing path.  The
"move to a different folder" branch compares `note.folder` with
`folderName` only after `note.folder` has already been overwritten by
`folderName`, so it is modelled exactly as written.  `now` is the mutation
tick, `now2` the tick of the `Date.now()` inside the move branch. -/
def updateNote (env : Env) (orc : Oracle) (now now2 : Nat) (st : AppState)
    (id content : String) (folderName : Option String) :
    Except String (AppState × Unit) :=
  if !(env.auth && env.repo) then .ok (st, ())
  else
    let st1 := { st with loading := true, error := none, syncStatus := .syncing }
    let finish := fun (s : AppState) (noteF : Note) =>
      ({ s with
          notes := s.notes.map (fun n => if n.id == id then noteF else n)
          currentNote :=
            match s.currentNote with
            | some cn => if cn.id == id then some noteF else some cn
            | none => none
          syncStatus := SyncStatus.synced
          loading := false }, ())
    jsCatch
      (match st1.notes.findIdx? (fun n => n.id == id) with
       | none => .error st1  -- throw new Error('Note not found')
       | some i =>
         match st1.notes.get? i with
         | none => .error st1  -- unreachable: findIdx? returned a valid index
         | some note =>
           -- `note.content = …; note.lastModified = …; if (folderName !== undefined) note.folder = folderName`
           let note1 : Note :=
             { note with
                content := content
                lastModified := now
                folder :=
                  match folderName with
                  | some f => some f
                  | none => note.folder }
           let st2 := { st1 with notes := st1.notes.set i note1 }
           if !env.online then
             .ok ({ st2 with
                     error := some "Cannot update note while offline"
                     syncStatus := .offline, loading := false }, ())
           else if !env.octokit then .error st2
           else
             match orc.getSha note1.path with
             | .error _ => .error st2
             | .ok _ =>
               if folderName.isSome && !(note1.folder == folderName) then
                 -- move = delete old path + create new path
                 match orc.delFile note1.path with
                 | .error _ => .error st2
                 | .ok _ =>
                   match orc.putFile (notePath folderName now2) with
                   | .error _ => .error st2
                   | .ok shaOpt =>
                     let note2 :=
                       { note1 with
                          path := notePath folderName now2
                          id := shaOpt.getD note1.id }
                     .ok (finish { st2 with notes := st2.notes.set i note2 } note2)
               else
                 match orc.putFile note1.path with
                 | .error _ => .error st2
                 | .ok _ => .ok (finish st2 note1))
      (fun s =>
        ({ s with error := some "Failed to update note", syncStatus := .offline
                  loading := false }, ()))

/-- `deleteNote`: checks connectivity and performs the remote delete first;
only after the remote delete succeeds is the note removed from the local
set. -/
def deleteNote (env : Env) (orc : Oracle) (st : AppState) (id : String) :
    Except String (AppState × Unit) :=
  if !(env.auth && env.repo) then .ok (st, ())
  else
    let st1 := { st with loading := true, error := none, syncStatus := .syncing }
    jsCatch
      (match st1.notes.find? (fun n => n.id == id) with
       | none => .error st1  -- throw new Error('Note not found')
       | some note =>
         if !env.online then
           .ok ({ st1 with
                   error := some "Cannot delete note while offline"
                   syncStatus := .offline, loading := false }, ())
         else if !env.octokit then .error st1
         else
           match orc.getSha note.path with
           | .error _ => .error st1
           | .ok _ =>
             match orc.delFile note.path with
             | .error _ => .error st1
             | .ok _ =>
               .ok ({ st1 with
                       notes := st1.notes.filter (fun n => !(n.id == id))
                       currentNote :=
                         match st1.currentNote with
                         | some cn => if cn.id == id then none else some cn
                         | none => none
                       syncStatus := .synced, loading := false }, ()))
      (fun s =>
        ({ s with error := some "Failed to delete note", syncStatus := .offline
                  loading := false }, ()))

/-- The folder object `fetchFolders` builds from a root `type: 'dir'` row. -/
def folderOfDir : String × String × String → Folder
  | (n, p, s) => { id := s, name := n, path := p, lastModified := s, notes := [] }

/-- `fetchFolders`: replaces `folders` with the root-level directories of
the repository. -/
def fetchFolders (env : Env) (tree : EntryList) (st : AppState) :
    Except String (AppState × Unit) :=
  if !(env.auth && env.repo) then .ok ({ st with folders := [] }, ())
  else
    let st1 := { st with loading := true, error := none }
    jsCatch
      (if !env.octokit then .error st1
       else
        .ok ({ st1 with folders := (topDirs tree).map folderOfDir
                        loading := false }, ()))
      (fun s =>
        ({ s with error := some "Failed to fetch folders from GitHub"
                  folders := [], loading := false }, ()))

/-- `createFolder`: writes the `.gitkeep` marker, refetches folders, and
returns `folders.find(f => f.name === name)` — read from the stale closure
over the pre-call `folders` state. -/
def createFolder (env : Env) (tree : EntryList) (orc : Oracle)
    (st : AppState) (name : String) :
    Except String (AppState × Option Folder) :=
  if !(env.auth && env.repo) then .ok (st, none)
  else
    let st1 := { st with loading := true, error := none }
    jsCatch
      (if !env.octokit then .error st1
       else
        match orc.putFile (name ++ "/.gitkeep") with
        | .error _ => .error st1
        | .ok _ =>
          match fetchFolders env tree st1 with
          | .ok (st2, _) =>
            .ok ({ st2 with loading := false },
                 st.folders.find? (fun f => f.name == name))
          | .error _ => .error st1)
      (fun s =>
        ({ s with error := some "Failed to create folder in GitHub"
                  loading := false }, none))

/-- The per-file body of `deleteFolder`'s loop: refetch the sha, then
delete; a failure of either rejects out of the loop. -/
def delEach (orc : Oracle) : List RFile → AppState → Except AppState AppState
  | [], s => .ok s
  | f :: rest, s =>
    match orc.getSha f.path with
    | .error _ => .error s
    | .ok _ =>
      match orc.delFile f.path with
      | .error _ => .error s
      | .ok _ => delEach orc rest s

/-- `deleteFolder`: lists the folder's entries, remotely deletes each file
in it, and refetches folders.  The local `notes` state is never touched. -/
def deleteFolder (env : Env) (tree : EntryList) (orc : Oracle)
    (st : AppState) (id : String) :
    Except String (AppState × Unit) :=
  if !(env.auth && env.repo) then .ok (st, ())
  else
    let st1 := { st with loading := true, error := none }
    jsCatch
      (if !env.octokit then .error st1
       else
        match st1.folders.find? (fun f => f.id == id) with
        | none => .error st1  -- throw new Error('Folder not found')
        | some folder =>
          match findDir tree folder.path with
          | none => .error st1  -- getContent on a vanished path rejects
          | some children =>
            match delEach orc (topFiles children) st1 with
            | .error s => .error s
            | .ok s =>
              match fetchFolders env tree s with
              | .ok (s2, _) => .ok ({ s2 with loading := false }, ())
              | .error _ => .error s)
      (fun s =>
        ({ s with error := some "Failed to delete folder in GitHub"
                  loading := false }, ()))

/-- The note `syncNotes` builds from a fetched root file (it attaches no
`folder` field). -/
def noteOfFileSync (now : Nat) (f : RFile) : Note :=
  { id := f.sha
    title := deriveTitle f.content (fallbackTitle f.name)
    content := f.content
    path := f.path
    folder := none
    lastModified := now
    synced := true }

/-- One step of `syncNotes`' merge: an unsynced local note at the fetched
path is kept (flagging `conflicted` when contents differ); a synced one is
replaced by the fetched note; an unmatched fetched note is appended. -/
def mergeOne (f : Note) : List Note × SyncStatus → List Note × SyncStatus :=
  fun acc =>
    let merged := acc.1
    let status := acc.2
    match merged.findIdx? (fun n => n.path == f.path) with
    | some i =>
      match merged.get? i with
      | some ln =>
        if ln.synced = false then
          if !(ln.content == f.content) then (merged, .conflicted)
          else (merged, status)
        else (merged.set i f, status)
      | none => (merged, status)
    | none => (merged ++ [f], status)

/-- `syncNotes`: lists root-level note files, reads them, merges them into
the local set, and finally sets `syncStatus` from `navigator.onLine` — this
last assignment overwrites any `'conflicted'` produced during the merge. -/
def syncNotes (env : Env) (tree : EntryList) (now : Nat) (st : AppState) :
    Except String (AppState × Unit) :=
  if !(env.auth && env.repo) then .ok (st, ())
  else
    let st1 := { st with loading := true, error := none }
    jsCatch
      (if !env.octokit then .error st1
       else
        let noteFiles := (topFiles tree).filter
          (fun f => jsStartsWith f.name "note_" || jsEndsWith f.name ".md")
        let fetched := noteFiles.map (noteOfFileSync now)
        let res := fetched.foldl (fun acc f => mergeOne f acc) (st1.notes, st1.syncStatus)
        .ok ({ st1 with
                notes := res.1
                -- res.2 (the merge's status, possibly 'conflicted') is
                -- discarded by the unconditional final setSyncStatus
                syncStatus := if env.online then .synced else .offline
                loading := false }, ()))
      (fun s =>
        ({ s with error := some "Failed to sync notes", loading := false }, ()))

end NoteCtx

namespace P8

/-! ## Variant context (`src/unnamed/part_008`) -/

/-- The note objects this variant builds: `lastModified` holds the file
sha on fetch (and ISO timestamps on local edits, both strings), and
`folder` is a plain string, `''` for root notes. -/
structure Note where
  id : String
  title : String
  content : String
  path : String
  lastModified : String
  synced : Bool
  folder : String
deriving DecidableEq, Repr

/-- A folder object of this variant; `notes` collects note ids. -/
structure Folder where
  id : String
  name : String
  path : String
  notes : List String
deriving DecidableEq, Repr

/-- The React state of the variant provider. -/
structure AppState where
  notes : List Note
  folders : List Folder
  currentNote : Option Note
  syncStatus : SyncStatus
  loading : Bool
  error : Option String
deriving DecidableEq, Repr

mutual
/-- The contribution of one listed entry to `getFilesRecursively`:
directories are expanded recursively; a file is kept exactly when its
lower-cased name ends in `.md` and is not `readme.md`. -/
def getFilesRecursivelyE : Entry → List RFile
  | .file n p s c =>
    if jsEndsWith (jsToLower n) ".md" && !(jsToLower n == "readme.md")
    then [⟨n, p, s, c⟩] else []
  | .dir _ _ _ ch => getFilesRecursively ch
/-- The recursive listing of this variant's `fetchNotes`. -/
def getFilesRecursively : EntryList → List RFile
  | .nil => []
  | .cons e rest => getFilesRecursivelyE e ++ getFilesRecursively rest
end

/-- The note `fetchNotes` builds from a fetched file: title from the file
name, folder from the path's first segment when the path contains `/`. -/
def noteOfFile (f : RFile) : Note :=
  { id := f.sha
    title := jsStripMdSuffix f.name
    content := f.content
    path := f.path
    lastModified := f.sha
    synced := true
    folder :=
      if f.path.data.contains '/' then ((jsSplit f.path '/').headD "") else "" }

/-- `fetchNotes`: fetches all note files and merges:
`setNotes(prev => [...fetchedNotes, ...prev.filter(note => !note.synced)])`
— synced local notes are replaced by the fetched set, unsynced local notes
are retained. -/
def fetchNotes (env : Env) (tree : EntryList) (st : AppState) : AppState :=
  if !(env.auth && env.repo) then st
  else
    let st1 := { st with loading := true, error := none }
    if !env.octokit then
      { st1 with error := some "Failed to fetch notes", syncStatus := .offline
                 loading := false }
    else
      let fetched := (getFilesRecursively tree).map noteOfFile
      { st1 with
          notes := fetched ++ st1.notes.filter (fun n => !n.synced)
          syncStatus := .synced
          loading := false }

/-- `deleteNote`: removes the note from the local set (and clears
`currentNote`) first, then — only when online, authenticated and with a
repository — attempts the remote delete, whose failure merely sets
`syncStatus = 'offline'`. -/
def deleteNote (env : Env) (orc : Oracle) (st : AppState) (id : String) :
    AppState :=
  match st.notes.find? (fun n => n.id == id) with
  | none => st
  | some noteToDelete =>
    let st1 :=
      { st with
          notes := st.notes.filter (fun n => !(n.id == id))
          currentNote :=
            match st.currentNote with
            | some cn => if cn.id == id then none else some cn
            | none => none }
    if env.online && env.auth && env.repo then
      if !env.octokit then { st1 with syncStatus := .offline }
      else
        match orc.getSha noteToDelete.path with
        | .error _ => { st1 with syncStatus := .offline }
        | .ok _ =>
          match orc.delFile noteToDelete.path with
          | .error _ => { st1 with syncStatus := .offline }
          | .ok _ => { st1 with syncStatus := .synced }
    else st1

/-- `deleteFolder`: deletes every note whose `folder` equals the folder's
name through `deleteNote`, then drops the folder locally.  The trailing
remote `.gitkeep` deletion attempt only logs on failure and performs no
state update, so it has no effect in the model. -/
def deleteFolder (env : Env) (orc : Oracle) (st : AppState) (id : String) :
    AppState :=
  if !env.repo then st
  else
    match st.folders.find? (fun f => f.id == id) with
    | none => st
    | some folderToDelete =>
      let folderNotes := st.notes.filter (fun n => n.folder == folderToDelete.name)
      let st1 := folderNotes.foldl (fun s n => deleteNote env orc s n.id) st
      { st1 with folders := st1.folders.filter (fun f => !(f.id == id)) }

end P8

/-! ## Concrete sessions and remote outcomes used by the claim proofs -/

/-- Authenticated online session with a selected repository. -/
def envAll : Env := ⟨true, true, true, true⟩

/-- Authenticated session with a selected repository, offline. -/
def envOffline : Env := ⟨true, true, true, false⟩

/-- Authenticated online session with no repository selected. -/
def envNoRepo : Env := ⟨true, false, true, true⟩

/-- Remote mutations that all succeed. -/
def orcOk : Oracle :=
  ⟨fun _ => .ok "sha0", fun _ => .ok (some "sha1"), fun _ => .ok ()⟩

namespace NoteCtx

/-- The empty provider state. -/
def st0 : AppState := ⟨[], [], none, .synced, false, none⟩

end NoteCtx

namespace P8

/-- The empty provider state of the variant. -/
def st0 : AppState := ⟨[], [], none, .synced, false, none⟩

end P8

/-! ## Shared helper lemmas -/

/-- `takeWhile` collects exactly the part before the first failing
element. -/
theorem takeWhile_append_of_forall {α : Type} (p : α → Bool) (l1 l2 : List α)
    (c0 : α) (h1 : ∀ c ∈ l1, p c = true) (h0 : p c0 = false) :
    (l1 ++ c0 :: l2).takeWhile p = l1 := by
  induction l1 with
  | nil => simp [List.takeWhile_cons, h0]
  | cons a l ih =>
    simp only [List.cons_append, List.takeWhile_cons,
      h1 a (List.mem_cons_self a l)]
    simp [ih (fun c hc => h1 c (List.mem_cons_of_mem a hc))]

/-- Splitting on a character that does not occur returns the whole list. -/
theorem splitOnChar_not_mem (sep : Char) (l : List Char) (h : sep ∉ l) :
    splitOnChar sep l = [l] := by
  induction l with
  | nil => rfl
  | cons c r ih =>
    have hc : ¬(c = sep) := fun hcc => h (hcc ▸ List.mem_cons_self c r)
    have hr : sep ∉ r := fun hm => h (List.mem_cons_of_mem _ hm)
    simp [splitOnChar, ih hr, hc]

/-- A freshly created note file name starts with the reserved prefix. -/
theorem jsStartsWith_note (ts : String) :
    jsStartsWith ("note_" ++ ts ++ ".md") "note_" = true := by
  simp [jsStartsWith, String.data_append, List.isPrefixOf_iff_prefix,
    List.append_assoc, List.prefix_append]

/-- `findIdx?` misses when the predicate fails on every element. -/
theorem findIdx?_eq_none_of_all {α : Type} {p : α → Bool} :
    ∀ (l : List α) (i : Nat), (∀ a ∈ l, p a = false) →
      List.findIdx? p l i = none := by
  intro l
  induction l with
  | nil => intro i _; rfl
  | cons a l ih =>
    intro i h
    simp only [List.findIdx?, h a (List.mem_cons_self a l)]
    simp only [Bool.false_eq_true, if_false]
    exact ih (i + 1) (fun x hx => h x (List.mem_cons_of_mem a hx))

/-- Title extraction recovers the title from a serialised note, provided
the title is non-empty, contains no newline and does not begin with
whitespace. -/
theorem deriveTitle_serializeNote (T C fb : String)
    (hT1 : ∀ c ∈ T.data, c ≠ '\n')
    (hT2 : ∀ c l, T.data = c :: l → isJsWs c = false)
    (hT3 : T ≠ "") :
    NoteCtx.deriveTitle (NoteCtx.serializeNote T C) fb = T := by
  have hdata : (NoteCtx.serializeNote T C).data
      = '#' :: ' ' :: (T.data ++ '\n' :: C.data) := by
    simp [NoteCtx.serializeNote, String.data_append]
  have hfirst : jsFirstLine (NoteCtx.serializeNote T C)
      = String.mk ('#' :: ' ' :: T.data) := by
    unfold jsFirstLine
    rw [hdata]
    simp only [List.takeWhile_cons]
    rw [takeWhile_append_of_forall _ T.data C.data '\n'
      (fun c hc => by simpa using hT1 c hc) (by simp)]
    simp
  have hmkT : String.mk T.data = T := by
    cases T; rfl
  have hstrip : jsStripHeading (String.mk ('#' :: ' ' :: T.data))
      = String.mk T.data := by
    unfold jsStripHeading
    simp only []
    have : isJsWs ' ' = true := by decide
    simp only [this, if_true]
    congr 1
    simp only [List.dropWhile_cons, this]
    cases hT : T.data with
    | nil => simp
    | cons c l =>
      have := hT2 c l hT
      simp [List.dropWhile_cons, this]
  unfold NoteCtx.deriveTitle
  rw [hfirst, hstrip, hmkT]
  simp [hT3]

/-! ## Claim C1 -/

/-- Claim C1 (code_bug): on a local unsynced note at path `a.md` with
content `x` and a remote file at the same path with different content `y`,
online, `syncNotes` does leave the local content unchanged, but it resolves
with `syncStatus = 'synced'`, not `'conflicted'`: the merge step itself
produces `'conflicted'` (third conjunct), and the trailing unconditional
`setSyncStatus(navigator.onLine ? 'synced' : 'offline')` then overwrites
it, contradicting the merge's own "mark as conflicted" handling. -/
theorem syncNotes_discards_conflicted_status :
    NoteCtx.syncNotes envAll (entryList [.file "a.md" "a.md" "s2" "y"]) 1
        { NoteCtx.st0 with notes := [⟨"id1", "t", "x", "a.md", none, 0, false⟩] }
      = .ok ({ NoteCtx.st0 with
                notes := [⟨"id1", "t", "x", "a.md", none, 0, false⟩]
                syncStatus := .synced }, ())
    ∧ SyncStatus.synced ≠ SyncStatus.conflicted
    ∧ (NoteCtx.mergeOne (NoteCtx.noteOfFileSync 1 ⟨"a.md", "a.md", "s2", "y"⟩)
        ([⟨"id1", "t", "x", "a.md", none, 0, false⟩], .synced)).2
      = .conflicted :=
  ⟨by decide, by decide, by decide⟩

/-! ## Claim C2 -/

/-- Claim C2 (counterexample): the canonical `fetchNotes` replaces the
whole local set with the fetched one — a local note with `synced = false`
and no matching remote file is dropped, not retained. -/
theorem fetchNotes_drops_unmatched_unsynced_note :
    (⟨"id1", "t", "x", "b.md", none, 0, false⟩ : NoteCtx.Note).synced = false
    ∧ NoteCtx.fetchNotes envAll .nil 1
        { NoteCtx.st0 with notes := [⟨"id1", "t", "x", "b.md", none, 0, false⟩] }
      = .ok ({ NoteCtx.st0 with notes := [] }, ()) :=
  ⟨by decide, by decide⟩

/-- Claim C2 (amended): in the `part_008` variant's `fetchNotes` — the
fetch-and-merge pass — a local note whose path matches no fetched remote
file is dropped when `synced = true` and retained when `synced = false`. -/
theorem fetchNotes_p8_unmatched_local_notes
    (env : Env) (tree : EntryList) (st : P8.AppState) (n : P8.Note)
    (ha : env.auth = true) (hr : env.repo = true) (ho : env.octokit = true)
    (hmem : n ∈ st.notes)
    (hnomatch : ∀ f ∈ P8.getFilesRecursively tree, f.path ≠ n.path) :
    (n.synced = true → n ∉ (P8.fetchNotes env tree st).notes)
    ∧ (n.synced = false → n ∈ (P8.fetchNotes env tree st).notes) := by
  unfold P8.fetchNotes
  rw [ha, hr, ho]
  simp only [Bool.and_self, Bool.not_true, Bool.false_eq_true, if_false,
    Bool.not_false, if_true]
  constructor
  · intro hs hin
    rcases List.mem_append.mp hin with hfetched | hkept
    · rcases List.mem_map.mp hfetched with ⟨f, hf, heq⟩
      exact hnomatch f hf (congrArg P8.Note.path heq)
    · rcases List.mem_filter.mp hkept with ⟨_, hns⟩
      rw [hs] at hns
      simp at hns
  · intro hs
    exact List.mem_append.mpr (Or.inr
      (List.mem_filter.mpr ⟨hmem, by rw [hs]; rfl⟩))

/-- Witness for C2 (amended): a concrete unsynced local note with no
remote match is retained by the variant's fetch. -/
theorem fetchNotes_p8_unmatched_local_notes_witness :
    (⟨"l1", "t", "c", "x.md", "s", false, ""⟩ : P8.Note) ∈
      (P8.fetchNotes envAll .nil
        { P8.st0 with notes := [⟨"l1", "t", "c", "x.md", "s", false, ""⟩] }).notes :=
  (fetchNotes_p8_unmatched_local_notes envAll .nil
    { P8.st0 with notes := [⟨"l1", "t", "c", "x.md", "s", false, ""⟩] }
    ⟨"l1", "t", "c", "x.md", "s", false, ""⟩
    rfl rfl rfl (by decide) (by decide)).2 rfl

/-! ## Claim C8 -/

mutual
/-- One-entry case of the correspondence between the filtered and the
unfiltered recursive listings. -/
theorem getAllFilesE_eq_filter (e : Entry) :
    NoteCtx.getAllFilesE e = (allFilesE e).filter
      (fun f => jsStartsWith f.name "note_" || jsEndsWith f.name ".md") := by
  cases e with
  | file n p s c =>
    simp [NoteCtx.getAllFilesE, allFilesE, List.filter_cons]
  | dir n p s ch =>
    simpa [NoteCtx.getAllFilesE, allFilesE] using getAllFiles_eq_filter_aux ch
/-- Listing case of the correspondence between the filtered and the
unfiltered recursive listings. -/
theorem getAllFiles_eq_filter_aux (t : EntryList) :
    NoteCtx.getAllFiles t = (allFiles t).filter
      (fun f => jsStartsWith f.name "note_" || jsEndsWith f.name ".md") := by
  cases t with
  | nil => rfl
  | cons e rest =>
    simp [NoteCtx.getAllFiles, allFiles, List.filter_append,
      getAllFilesE_eq_filter e, getAllFiles_eq_filter_aux rest]
end

/-- Claim C8 (counterexample): the canonical listing includes `README.md`
(the claim excludes folder markers and the root README) and excludes
`A.MD` (the claim's `.md` test is case-insensitive); `.gitkeep` is absent
only because it matches neither pattern. -/
theorem getAllFiles_readme_and_case :
    NoteCtx.getAllFiles
        (entryList
          [.file "README.md" "README.md" "s1" "hello",
           .file "A.MD" "A.MD" "s2" "x",
           .file ".gitkeep" "docs/.gitkeep" "s3" ""])
      = [⟨"README.md", "README.md", "s1", "hello"⟩] := by
  decide

/-- Claim C8 (amended): the canonical recursive listing keeps a file
exactly when its name starts with `note_` or ends with `.md`
(case-sensitively); no marker-file or README exclusion is applied. -/
theorem getAllFiles_is_plain_name_filter (t : EntryList) :
    NoteCtx.getAllFiles t = (allFiles t).filter
      (fun f => jsStartsWith f.name "note_" || jsEndsWith f.name ".md") :=
  getAllFiles_eq_filter_aux t

/-! ## Claim C3 -/

/-- Claim C3 (counterexample): creating a note with title `A` and content
`b` serialises `# A\nb`; fetching it back in a fresh session yields one
note whose title is `A` but whose content is `# A\nb` — the synthesized
leading heading line is part of the fetched content, which therefore
differs from `b`. -/
theorem roundtrip_fetched_content_keeps_heading :
    NoteCtx.serializeNote "A" "b" = "# A\nb"
    ∧ NoteCtx.fetchNotes envAll
        (entryList [.file "note_1.md" "note_1.md" "s1"
          (NoteCtx.serializeNote "A" "b")]) 1 NoteCtx.st0
      = .ok ({ NoteCtx.st0 with
                notes := [⟨"s1", "A", "# A\nb", "note_1.md", none, 1, true⟩] }, ())
    ∧ ("# A\nb" : String) ≠ "b" :=
  ⟨by decide, by decide, by decide⟩

/-- Claim C3 (amended): the round trip holds with the heading retained:
for any title `T` (non-empty, containing no newline, not beginning with
whitespace) and any content `C`, fetching — in a fresh session — a
repository holding exactly the file `createNote` wrote (`note_<ts>.md`
containing `serializeNote T C`) yields exactly one note, whose title is
`T` and whose content is the full serialised text `"# T\nC"`, not `C`. -/
theorem roundtrip_title_and_full_content
    (env : Env) (now : Nat) (st : NoteCtx.AppState) (T C ts sha : String)
    (ha : env.auth = true) (hr : env.repo = true) (ho : env.octokit = true)
    (hT1 : ∀ c ∈ T.data, c ≠ '\n')
    (hT2 : ∀ c l, T.data = c :: l → isJsWs c = false)
    (hT3 : T ≠ "")
    (hts : ('/' : Char) ∉ ("note_" ++ ts ++ ".md").data) :
    ∀ st1 r,
      NoteCtx.fetchNotes env
          (entryList [.file ("note_" ++ ts ++ ".md") ("note_" ++ ts ++ ".md")
            sha (NoteCtx.serializeNote T C)]) now st
        = .ok (st1, r) →
      st1.notes
        = [{ id := sha, title := T, content := NoteCtx.serializeNote T C
             path := "note_" ++ ts ++ ".md", folder := none
             lastModified := now, synced := true }] := by
  intro st1 r heq
  have hlist :
      NoteCtx.getAllFiles
          (entryList [.file ("note_" ++ ts ++ ".md") ("note_" ++ ts ++ ".md")
            sha (NoteCtx.serializeNote T C)])
        = [⟨"note_" ++ ts ++ ".md", "note_" ++ ts ++ ".md", sha,
            NoteCtx.serializeNote T C⟩] := by
    simp [NoteCtx.getAllFiles, NoteCtx.getAllFilesE, entryList,
      jsStartsWith_note ts]
  unfold NoteCtx.fetchNotes at heq
  rw [ha, hr, ho] at heq
  simp only [Bool.and_self, Bool.not_true, Bool.false_eq_true, if_false,
    Bool.not_false, if_true, NoteCtx.jsCatch, hlist, List.map] at heq
  rw [Except.ok.injEq, Prod.mk.injEq] at heq
  obtain ⟨h1, -⟩ := heq
  rw [← h1]
  simp only [NoteCtx.noteOfFile]
  have hsplit : jsSplit ("note_" ++ ts ++ ".md") '/'
      = ["note_" ++ ts ++ ".md"] := by
    unfold jsSplit
    rw [splitOnChar_not_mem '/' _ hts]
    rfl
  rw [hsplit]
  simp [deriveTitle_serializeNote T C _ hT1 hT2 hT3]

/-- Witness for C3 (amended): the concrete round trip for title `A`,
content `b`, timestamp `1`. -/
theorem roundtrip_title_and_full_content_witness :
    ({ NoteCtx.st0 with
        notes := [⟨"s1", "A", "# A\nb", "note_1.md", none, 1, true⟩]
      } : NoteCtx.AppState).notes
      = [{ id := "s1", title := "A", content := NoteCtx.serializeNote "A" "b"
           path := "note_" ++ "1" ++ ".md", folder := none
           lastModified := 1, synced := true }] :=
  roundtrip_title_and_full_content envAll 1 NoteCtx.st0 "A" "b" "1" "s1"
    rfl rfl rfl (by decide)
    (by
      intro c l h
      have h2 : ('A' :: [] : List Char) = c :: l := h
      injection h2 with h3 h4
      rw [← h3]
      decide)
    (by decide) (by decide)
    { NoteCtx.st0 with
        notes := [⟨"s1", "A", "# A\nb", "note_1.md", none, 1, true⟩] }
    () (by decide)

/-! ## Claim C4 -/

/-- Claim C4 (code_bug): `updateNote` with a new folder — authenticated,
online, every remote call succeeding — leaves the note's path unchanged
while setting its folder field: the code overwrites `note.folder` with
`folderName` before evaluating the move condition
`folderName !== undefined && note.folder !== folderName`, so the
delete-old/create-new move branch can never run; the resulting note has
`folder = "b"` but its path still starts with the old folder `a`, so the
path-folder consistency invariant is violated (also offline, where the
operation returns before any path logic). -/
theorem updateNote_folder_change_keeps_path :
    NoteCtx.updateNote envAll orcOk 5 6
        { NoteCtx.st0 with
            notes := [⟨"i1", "t", "c", "a/note_1.md", some "a", 0, true⟩] }
        "i1" "c2" (some "b")
      = .ok ({ NoteCtx.st0 with
                notes := [⟨"i1", "t", "c2", "a/note_1.md", some "b", 5, true⟩]
                syncStatus := .synced }, ())
    ∧ jsStartsWith "a/note_1.md" "b/" = false
    ∧ jsSplit "a/note_1.md" '/' = ["a", "note_1.md"] :=
  ⟨by decide, by decide, by decide⟩

/-! ## Claims C5 and C6: helper lemmas on the variant's deletes -/

/-- The variant's `deleteNote` always leaves the local set equal to the
previous set with the note of that id filtered out, on every connectivity
and remote outcome (when the id is absent the filter removes nothing). -/
theorem p8_deleteNote_notes (env : Env) (orc : Oracle) (st : P8.AppState)
    (id : String) :
    (P8.deleteNote env orc st id).notes
      = st.notes.filter (fun n => !(n.id == id)) := by
  unfold P8.deleteNote
  cases hfind : st.notes.find? (fun n => n.id == id) with
  | none =>
    simp only []
    have hall := List.find?_eq_none.mp hfind
    symm
    refine List.filter_eq_self.mpr (fun a ha => ?_)
    have := hall a ha
    simp at this
    simp [this]
  | some nd =>
    simp only []
    repeat' split
    all_goals rfl

/-- Folding the variant's `deleteNote` over a list of notes filters out
every listed id. -/
theorem p8_deleteMany_notes (env : Env) (orc : Oracle) :
    ∀ (l : List P8.Note) (st : P8.AppState),
      (l.foldl (fun s n => P8.deleteNote env orc s n.id) st).notes
        = st.notes.filter (fun n => !(l.any (fun m => n.id == m.id))) := by
  intro l
  induction l with
  | nil => intro st; simp
  | cons m l ih =>
    intro st
    rw [List.foldl_cons, ih, p8_deleteNote_notes, List.filter_filter]
    refine List.filter_congr (fun a _ => ?_)
    simp [List.any_cons, Bool.not_or, Bool.and_comm]

/-! ## Claim C5 -/

/-- Claim C5 (counterexample): the canonical `deleteFolder` — folder
`docs` present, every remote call succeeding — resolves with the local
`notes` set untouched: the note whose `folder` equals the deleted folder's
name `docs` is still in the local set. -/
theorem deleteFolder_leaves_folder_notes :
    NoteCtx.deleteFolder envAll (entryList [.dir "docs" "docs" "dsha" .nil])
        orcOk
        { NoteCtx.st0 with
            notes := [⟨"n1", "t", "c", "docs/note_1.md", some "docs", 0, true⟩]
            folders := [⟨"fid", "docs", "docs", "dsha", []⟩] }
        "fid"
      = .ok ({ NoteCtx.st0 with
                notes := [⟨"n1", "t", "c", "docs/note_1.md", some "docs", 0, true⟩]
                folders := [⟨"dsha", "docs", "docs", "dsha", []⟩] }, ())
    ∧ (⟨"n1", "t", "c", "docs/note_1.md", some "docs", 0, true⟩
        : NoteCtx.Note).folder = some "docs" :=
  ⟨by decide, by decide⟩

/-- Claim C5 (amended): in the `part_008` variant, after `deleteFolder(id)`
resolves for an existing folder no note remains in the local set whose
`folder` equals the deleted folder's name, for every remote outcome —
including failing per-file deletions — because each member note is removed
locally by `deleteNote` before its remote delete is attempted. -/
theorem deleteFolder_p8_no_folder_notes
    (env : Env) (orc : Oracle) (st : P8.AppState) (id : String)
    (fol : P8.Folder)
    (hr : env.repo = true)
    (hfind : st.folders.find? (fun f => f.id == id) = some fol) :
    (P8.deleteFolder env orc st id).notes.filter
        (fun n => n.folder == fol.name) = [] := by
  unfold P8.deleteFolder
  rw [hr]
  simp only [Bool.not_true, Bool.false_eq_true, if_false, hfind]
  refine List.filter_eq_nil_iff.mpr (fun n hn => ?_)
  simp only [] at hn
  rw [p8_deleteMany_notes] at hn
  obtain ⟨hmem, hpred⟩ := List.mem_filter.mp hn
  intro hfol
  apply absurd hpred
  simp only [Bool.not_eq_true', Bool.not_eq_false]
  refine List.any_eq_true.mpr ⟨n, List.mem_filter.mpr ⟨hmem, hfol⟩, by simp⟩

/-- Witness for C5 (amended): a concrete folder `docs` with one member
note and a failing remote delete still leaves no `docs` note locally. -/
theorem deleteFolder_p8_no_folder_notes_witness :
    (P8.deleteFolder envAll
        ⟨fun _ => .ok "sha0", fun _ => .ok (some "sha1"), fun _ => .error ()⟩
        { P8.st0 with
            notes := [⟨"n1", "t", "c", "docs/note_1.md", "dsha", true, "docs"⟩]
            folders := [⟨"fid", "docs", "docs", []⟩] }
        "fid").notes.filter
      (fun n => n.folder == (⟨"fid", "docs", "docs", []⟩ : P8.Folder).name)
      = [] :=
  deleteFolder_p8_no_folder_notes envAll
    ⟨fun _ => .ok "sha0", fun _ => .ok (some "sha1"), fun _ => .error ()⟩
    { P8.st0 with
        notes := [⟨"n1", "t", "c", "docs/note_1.md", "dsha", true, "docs"⟩]
        folders := [⟨"fid", "docs", "docs", []⟩] }
    "fid" ⟨"fid", "docs", "docs", []⟩ rfl (by decide)

/-! ## Claim C6 -/

/-- Claim C6 (counterexample): the canonical `deleteNote` called offline
resolves without removing the note — the local set still contains it, with
an error message set; removal happens only after a successful remote
delete, so it is neither immediate nor independent of the remote
outcome. -/
theorem deleteNote_offline_keeps_note :
    NoteCtx.deleteNote envOffline orcOk
        { NoteCtx.st0 with notes := [⟨"id1", "t", "x", "a.md", none, 0, true⟩] }
        "id1"
      = .ok ({ NoteCtx.st0 with
                notes := [⟨"id1", "t", "x", "a.md", none, 0, true⟩]
                error := some "Cannot delete note while offline"
                syncStatus := .offline }, ()) := by
  decide

/-- Claim C6 (amended): in the `part_008` variant, `deleteNote(id)` removes
the note from the local set immediately and the local set equals the
previous set with that id filtered out for every connectivity state and
every remote outcome — a failed remote delete does not restore the note. -/
theorem deleteNote_p8_removes_locally (env : Env) (orc : Oracle)
    (st : P8.AppState) (id : String) :
    (P8.deleteNote env orc st id).notes
      = st.notes.filter (fun n => !(n.id == id)) :=
  p8_deleteNote_notes env orc st id

/-! ## Claim C7 -/

/-- Claim C7 (confirmed): `createNote` while offline, with an
authenticated session and a selected repository, resolves (returning the
temporary note, not rejecting) and the resulting notes list contains the
new note with `synced = false`, its title and content as given. -/
theorem createNote_offline_optimistic
    (env : Env) (orc : Oracle) (now now2 : Nat) (st : NoteCtx.AppState)
    (title content : String) (folderName : Option String)
    (ha : env.auth = true) (hr : env.repo = true) (hoff : env.online = false) :
    ∃ st1 note,
      NoteCtx.createNote env orc now now2 st title content folderName
        = .ok (st1, some note)
      ∧ note ∈ st1.notes ∧ note.synced = false
      ∧ note.title = title ∧ note.content = content := by
  refine
    ⟨{ st with
        loading := true
        error := some "Cannot sync note while offline. Your note will be synced when you are back online."
        syncStatus := .offline
        notes := st.notes ++
          [{ id := "temp-" ++ toString now, title := title, content := content
             path := NoteCtx.notePath folderName now, folder := folderName
             lastModified := now, synced := false }]
        currentNote := some
          { id := "temp-" ++ toString now, title := title, content := content
            path := NoteCtx.notePath folderName now, folder := folderName
            lastModified := now, synced := false } },
      { id := "temp-" ++ toString now, title := title, content := content
        path := NoteCtx.notePath folderName now, folder := folderName
        lastModified := now, synced := false },
      ?_, ?_, rfl, rfl, rfl⟩
  · unfold NoteCtx.createNote
    rw [ha, hr, hoff]
    rfl
  · simp

/-- Witness for C7: a concrete offline create. -/
theorem createNote_offline_optimistic_witness :
    ∃ st1 note,
      NoteCtx.createNote envOffline orcOk 1 2 NoteCtx.st0 "T" "C" none
        = .ok (st1, some note)
      ∧ note ∈ st1.notes ∧ note.synced = false
      ∧ note.title = "T" ∧ note.content = "C" :=
  createNote_offline_optimistic envOffline orcOk 1 2 NoteCtx.st0 "T" "C" none
    rfl rfl rfl

/-! ## Claim C9 -/

/-- A promise that resolves rather than rejecting. -/
def resolves {α : Type} (e : Except String α) : Prop := ∃ r, e = .ok r

/-- A `try`/`catch` whose catch block does not re-throw always resolves. -/
theorem jsCatch_resolves {α : Type} (b : NoteCtx.Body α)
    (h : NoteCtx.AppState → NoteCtx.AppState × α) :
    resolves (NoteCtx.jsCatch b h) := by
  cases b <;> exact ⟨_, rfl⟩

/-- Claim C9 (counterexample): `fetchNotes` with no repository selected is
not a no-op: it clears the local notes list (and the current note) even
though a note was present. -/
theorem fetchNotes_norepo_clears_notes :
    NoteCtx.fetchNotes envNoRepo .nil 0
        { NoteCtx.st0 with notes := [⟨"id1", "t", "x", "a.md", none, 0, true⟩] }
      = .ok ({ NoteCtx.st0 with notes := [], currentNote := none }, ())
    ∧ ([] : List NoteCtx.Note)
        ≠ [⟨"id1", "t", "x", "a.md", none, 0, true⟩] :=
  ⟨by decide, by decide⟩

/-- Claim C9 (amended): every public operation resolves — never rejects —
for every session, remote snapshot and remote outcome; with no repository
selected each operation returns `null`/`undefined` without consulting the
remote, leaving the state unchanged, except `fetchNotes`, which
additionally clears `notes` and `currentNote` (it is not a pure no-op). -/
theorem operations_resolve_and_norepo_behavior :
    (∀ env tree now st, resolves (NoteCtx.fetchNotes env tree now st))
    ∧ (∀ env orc now now2 st t c fn,
        resolves (NoteCtx.createNote env orc now now2 st t c fn))
    ∧ (∀ env orc now now2 st id c fn,
        resolves (NoteCtx.updateNote env orc now now2 st id c fn))
    ∧ (∀ env orc st id, resolves (NoteCtx.deleteNote env orc st id))
    ∧ (∀ env tree orc st name,
        resolves (NoteCtx.createFolder env tree orc st name))
    ∧ (∀ env tree orc st id,
        resolves (NoteCtx.deleteFolder env tree orc st id))
    ∧ (∀ env tree now st, resolves (NoteCtx.syncNotes env tree now st))
    ∧ (∀ a ok onl tree now st,
        NoteCtx.fetchNotes ⟨a, false, ok, onl⟩ tree now st
          = .ok ({ st with notes := [], currentNote := none }, ()))
    ∧ (∀ a ok onl orc now now2 st t c fn,
        NoteCtx.createNote ⟨a, false, ok, onl⟩ orc now now2 st t c fn
          = .ok (st, none))
    ∧ (∀ a ok onl orc now now2 st id c fn,
        NoteCtx.updateNote ⟨a, false, ok, onl⟩ orc now now2 st id c fn
          = .ok (st, ()))
    ∧ (∀ a ok onl orc st id,
        NoteCtx.deleteNote ⟨a, false, ok, onl⟩ orc st id = .ok (st, ()))
    ∧ (∀ a ok onl tree orc st name,
        NoteCtx.createFolder ⟨a, false, ok, onl⟩ tree orc st name
          = .ok (st, none))
    ∧ (∀ a ok onl tree orc st id,
        NoteCtx.deleteFolder ⟨a, false, ok, onl⟩ tree orc st id = .ok (st, ()))
    ∧ (∀ a ok onl tree now st,
        NoteCtx.syncNotes ⟨a, false, ok, onl⟩ tree now st = .ok (st, ())) := by
  refine ⟨?_, ?_, ?_, ?_, ?_, ?_, ?_, ?_, ?_, ?_, ?_, ?_, ?_, ?_⟩
  · intro env tree now st
    unfold NoteCtx.fetchNotes
    split
    · exact ⟨_, rfl⟩
    · exact jsCatch_resolves _ _
  · intro env orc now now2 st t c fn
    unfold NoteCtx.createNote
    split
    · exact ⟨_, rfl⟩
    · split
      · exact ⟨_, rfl⟩
      · exact jsCatch_resolves _ _
  · intro env orc now now2 st id c fn
    unfold NoteCtx.updateNote
    split
    · exact ⟨_, rfl⟩
    · exact jsCatch_resolves _ _
  · intro env orc st id
    unfold NoteCtx.deleteNote
    split
    · exact ⟨_, rfl⟩
    · exact jsCatch_resolves _ _
  · intro env tree orc st name
    unfold NoteCtx.createFolder
    split
    · exact ⟨_, rfl⟩
    · exact jsCatch_resolves _ _
  · intro env tree orc st id
    unfold NoteCtx.deleteFolder
    split
    · exact ⟨_, rfl⟩
    · exact jsCatch_resolves _ _
  · intro env tree now st
    unfold NoteCtx.syncNotes
    split
    · exact ⟨_, rfl⟩
    · exact jsCatch_resolves _ _
  · intro a ok onl tree now st
    simp [NoteCtx.fetchNotes, Bool.and_false]
  · intro a ok onl orc now now2 st t c fn
    simp [NoteCtx.createNote, Bool.and_false]
  · intro a ok onl orc now now2 st id c fn
    simp [NoteCtx.updateNote, Bool.and_false]
  · intro a ok onl orc st id
    simp [NoteCtx.deleteNote, Bool.and_false]
  · intro a ok onl tree orc st name
    simp [NoteCtx.createFolder, Bool.and_false]
  · intro a ok onl tree orc st id
    simp [NoteCtx.deleteFolder, Bool.and_false]
  · intro a ok onl tree now st
    simp [NoteCtx.syncNotes, Bool.and_false]

/-! ## Claim C10 -/

/-- Claim C10 (confirmed): `updateNote` and `deleteNote` called with an id
matching no note — authenticated, with a repository, whatever the
connectivity — resolve without throwing ("Note not found" is thrown and
caught at the boundary), leave the notes list unchanged, set the error
field to a non-null failure message and set `syncStatus = 'offline'`. -/
theorem unknown_id_update_delete
    (env : Env) (orc : Oracle) (now now2 : Nat) (st : NoteCtx.AppState)
    (id content : String) (folderName : Option String)
    (ha : env.auth = true) (hr : env.repo = true)
    (habsent : ∀ n ∈ st.notes, (n.id == id) = false) :
    (∃ st1, NoteCtx.updateNote env orc now now2 st id content folderName
        = .ok (st1, ())
      ∧ st1.notes = st.notes ∧ st1.error = some "Failed to update note"
      ∧ st1.syncStatus = .offline)
    ∧ (∃ st2, NoteCtx.deleteNote env orc st id = .ok (st2, ())
      ∧ st2.notes = st.notes ∧ st2.error = some "Failed to delete note"
      ∧ st2.syncStatus = .offline) := by
  have hidx : st.notes.findIdx? (fun n => n.id == id) = none :=
    findIdx?_eq_none_of_all st.notes 0 habsent
  have hfind : st.notes.find? (fun n => n.id == id) = none :=
    List.find?_eq_none.mpr (fun x hx => by simp [habsent x hx])
  constructor
  · have heq : NoteCtx.updateNote env orc now now2 st id content folderName
        = .ok ({ st with loading := false
                         error := some "Failed to update note"
                         syncStatus := .offline }, ()) := by
      unfold NoteCtx.updateNote
      rw [ha, hr]
      simp [hidx, NoteCtx.jsCatch]
    exact ⟨_, heq, rfl, rfl, rfl⟩
  · have heq : NoteCtx.deleteNote env orc st id
        = .ok ({ st with loading := false
                         error := some "Failed to delete note"
                         syncStatus := .offline }, ()) := by
      unfold NoteCtx.deleteNote
      rw [ha, hr]
      simp [hfind, NoteCtx.jsCatch]
    exact ⟨_, heq, rfl, rfl, rfl⟩

/-- Witness for C10: a concrete unknown id on a one-note state, online. -/
theorem unknown_id_update_delete_witness :
    (∃ st1, NoteCtx.updateNote envAll orcOk 1 2
        { NoteCtx.st0 with notes := [⟨"id1", "t", "x", "a.md", none, 0, true⟩] }
        "ghost" "c" none
        = .ok (st1, ())
      ∧ st1.notes = ({ NoteCtx.st0 with
          notes := [⟨"id1", "t", "x", "a.md", none, 0, true⟩] }
            : NoteCtx.AppState).notes
      ∧ st1.error = some "Failed to update note"
      ∧ st1.syncStatus = .offline)
    ∧ (∃ st2, NoteCtx.deleteNote envAll orcOk
        { NoteCtx.st0 with notes := [⟨"id1", "t", "x", "a.md", none, 0, true⟩] }
        "ghost" = .ok (st2, ())
      ∧ st2.notes = ({ NoteCtx.st0 with
          notes := [⟨"id1", "t", "x", "a.md", none, 0, true⟩] }
            : NoteCtx.AppState).notes
      ∧ st2.error = some "Failed to delete note"
      ∧ st2.syncStatus = .offline) :=
  unknown_id_update_delete envAll orcOk 1 2
    { NoteCtx.st0 with notes := [⟨"id1", "t", "x", "a.md", none, 0, true⟩] }
    "ghost" "c" none rfl rfl (by decide)

